import Mathlib

/-!
Shallow embedding of the HR-AI-Interviewer frontend (TypeScript) and proofs
about its claims.  The modelled code lives in:

* `src/frontend/src/hooks/useCamera.ts` — camera wrapper, backend face
  detection with a client-side skin-tone fallback;
* `src/frontend/src/hooks/useInterview.ts` — interview session state machine,
  heuristic response scorer, audio recording;
* `src/frontend/src/hooks/jd_gen_ques.ts` — alternative question-generation
  hook;
* `src/frontend/src/components/InterviewAnalytics.tsx` — analytics polling.

Browser-supplied nondeterminism (fetch results, `Math.random()` jitter,
`Date.now()`, media frames, regex oracle outcomes on free text where the
claims do not depend on the match result) is passed to the modelled
operations as explicit parameters.  JavaScript numbers that carry fractional
values are modelled as `ℚ`; array indices and counts as `Nat`.
-/

namespace HRAI

/-! ## Pixels and the client-side skin-tone face detector
(`useCamera.ts`, `performClientSideDetection`, lines 171-217) -/

/-- One RGBA pixel of the captured frame; the alpha component is ignored by
the detector, so only `r`, `g`, `b` are modelled (byte values). -/
structure Pixel where
  r : Nat
  g : Nat
  b : Nat
deriving DecidableEq

/-- Translation of the skin-tone test in `performClientSideDetection`:
`r > 95 && g > 40 && b > 20 && Math.max(r,g,b) - Math.min(r,g,b) > 15 &&
Math.abs(r - g) > 15 && r > g && r > b`.  `Math.abs(r - g)` is the absolute
difference of the two bytes. -/
def isSkinPixel (p : Pixel) : Bool :=
  decide (95 < p.r ∧ 40 < p.g ∧ 20 < p.b ∧
    15 < max p.r (max p.g p.b) - min p.r (min p.g p.b) ∧
    15 < ((p.r : Int) - (p.g : Int)).natAbs ∧ p.g < p.r ∧ p.b < p.r)

/-- `skinPixels` counter of `performClientSideDetection`. -/
def skinPixelCount (frame : List Pixel) : Nat :=
  (frame.filter isSkinPixel).length

/-- `skinRatio = skinPixels / totalPixels` (`totalPixels = data.length / 4`
is the number of pixels, i.e. the length of the frame). -/
def skinRatio (frame : List Pixel) : ℚ :=
  (skinPixelCount frame : ℚ) / (frame.length : ℚ)

/-- `facePresent = skinRatio > 0.02`. -/
def facePresent (frame : List Pixel) : Bool :=
  decide (skinRatio frame > 2 / 100)

/-! ## Heuristic response scoring
(`useInterview.ts`, `submitResponse`, lines 241-299) -/

/-- The score computation of `submitResponse`.  `jc` and `jcl` are the
confidence and clarity jitters `Math.floor(Math.random() * 20)`, so each is
`< 20`.  The three regex outcomes on the answer are passed as booleans
because the scores depend on the answer only through them, the answer length
and the unique-keyword count. -/
def computeScores (jc jcl respLen duration uniqueKwCount : Nat)
    (hasSpecificExamples hasQuantifiableResults hasRelevantKeywords : Bool) :
    Nat × Nat × Nat :=
  let confidence := jc + 70
  let clarity := jcl + 75
  let relevanceScore := 60
  let confidence := if 100 < respLen then confidence + 5 else confidence
  let confidence := if 200 < respLen then confidence + 5 else confidence
  let confidence := if hasSpecificExamples then confidence + 10 else confidence
  let relevanceScore := if hasSpecificExamples then relevanceScore + 15 else relevanceScore
  let confidence := if hasQuantifiableResults then confidence + 8 else confidence
  let relevanceScore := if hasQuantifiableResults then relevanceScore + 10 else relevanceScore
  let confidence := if hasRelevantKeywords then confidence + 7 else confidence
  let relevanceScore := if hasRelevantKeywords then relevanceScore + 12 else relevanceScore
  let clarity := if 30 < duration ∧ duration < 180 then clarity + 5 else clarity
  let clarity := if 10 < uniqueKwCount then clarity + 5 else clarity
  (min 100 confidence, min 100 clarity, min 100 relevanceScore)

/-! ## Keyword extraction
`answer.toLowerCase().match(/\b\w{4,}\b/g)` followed by `[...new Set(...)]`
and `.slice(0, 10)` (`useInterview.ts` lines 250-251 and 289). -/

/-- JavaScript's `\w`: ASCII letters, digits and underscore. -/
def isWordChar (c : Char) : Bool :=
  c.isAlpha || c.isDigit || c == '_'

/-- JavaScript `toLowerCase`, modelled character-wise (all strings the
application feeds through it are treated per ASCII character). -/
def lowerStr (s : String) : String :=
  String.mk (s.data.map Char.toLower)

theorem dropWhile_length_le (p : Char → Bool) (l : List Char) :
    (l.dropWhile p).length ≤ l.length := by
  induction l with
  | nil => simp [List.dropWhile]
  | cons a l ih =>
    rw [List.dropWhile_cons]
    by_cases h : p a = true
    · simp only [h, if_true]
      exact Nat.le_succ_of_le ih
    · simp [h]

/-- Fuel-indexed helper for `wordRuns`: each step consumes at least one
character, so any fuel of at least the list length computes the full run
list (`wordRunsFuel_adequate`); the fuel only makes the recursion
structural. -/
def wordRunsFuel : Nat → List Char → List (List Char)
  | _, [] => []
  | 0, _ :: _ => []
  | fuel + 1, c :: cs =>
    if isWordChar c then
      (c :: cs.takeWhile isWordChar) :: wordRunsFuel fuel (cs.dropWhile isWordChar)
    else
      wordRunsFuel fuel cs

/-- The maximal runs of word characters of a character list.  The global
regex `\b\w{4,}\b` matches exactly the maximal word-character runs of length
at least 4, so `match` is modelled by `wordRuns` plus a length filter. -/
def wordRuns (l : List Char) : List (List Char) :=
  wordRunsFuel l.length l

/-- Any fuel of at least the list length computes the same run list, so
`wordRuns` is the fixed point of the intended recursion. -/
theorem wordRunsFuel_nil (n : Nat) : wordRunsFuel n [] = [] := by
  cases n <;> rfl

theorem wordRunsFuel_adequate : ∀ (n m : Nat) (l : List Char),
    l.length ≤ n → l.length ≤ m → wordRunsFuel n l = wordRunsFuel m l := by
  intro n
  induction n with
  | zero =>
    intro m l hn _
    have : l = [] := List.eq_nil_of_length_eq_zero (Nat.le_zero.mp hn)
    subst this
    rw [wordRunsFuel_nil, wordRunsFuel_nil]
  | succ n ih =>
    intro m l hn hm
    match l, m with
    | [], _ => rw [wordRunsFuel_nil, wordRunsFuel_nil]
    | c :: cs, 0 => simp at hm
    | c :: cs, m + 1 =>
      rw [wordRunsFuel, wordRunsFuel]
      by_cases hc : isWordChar c = true
      · rw [if_pos hc, if_pos hc]
        have h1 : (cs.dropWhile isWordChar).length ≤ n := by
          have := dropWhile_length_le isWordChar cs
          simp at hn
          omega
        have h2 : (cs.dropWhile isWordChar).length ≤ m := by
          have := dropWhile_length_le isWordChar cs
          simp at hm
          omega
        rw [ih _ _ h1 h2]
      · rw [if_neg hc, if_neg hc]
        have h1 : cs.length ≤ n := by simp at hn; omega
        have h2 : cs.length ≤ m := by simp at hm; omega
        rw [ih _ _ h1 h2]

/-- `answer.toLowerCase().match(/\b\w{4,}\b/g) || []`. -/
def matchKeywords (s : String) : List String :=
  ((wordRuns s.data).filter (fun r => 4 ≤ r.length)).map (fun r => String.mk r)

/-- `[...new Set(keywords)]`: deduplication keeping the first occurrence of
each element, in order. -/
def dedupFirstAux (seen : List String) : List String → List String
  | [] => []
  | w :: ws =>
    if w ∈ seen then dedupFirstAux seen ws
    else w :: dedupFirstAux (w :: seen) ws

/-- `uniqueKeywords` of `submitResponse`. -/
def uniqueKeywords (answer : String) : List String :=
  dedupFirstAux [] (matchKeywords (lowerStr answer))

/-! ## Data model (`types.ts` as used by the hooks) -/

/-- `Question` (fields as produced by the two generators; `type` is renamed
`qType` because field names follow the source where Lean allows it). -/
structure Question where
  id : String
  text : String
  qType : String
  timeLimit : Nat
  difficulty : String
  department : String
  category : String
deriving DecidableEq

/-- `InterviewResponse`.  Audio blobs are opaque to all of the modelled
logic, so `audioBlob` is modelled as an optional unit. -/
structure InterviewResponse where
  questionId : String
  answer : String
  audioBlob : Option Unit
  duration : Nat
  confidence : Nat
  clarity : Nat
  emotionalTone : String
  keywords : List String
  relevanceScore : Nat
deriving DecidableEq

structure CategoryScores where
  communication : Int
  technical : Int
  confidence : Int
  clarity : Int
  emotionalIntelligence : Int
deriving DecidableEq

structure DetailedAnalysis where
  responseQuality : Int
  technicalAccuracy : Int
  communicationSkills : Int
  problemSolvingAbility : Int
deriving DecidableEq

/-- `InterviewResult` as built by `completeInterview`. -/
structure InterviewResult where
  overallScore : Int
  categoryScores : CategoryScores
  responses : List InterviewResponse
  feedback : List String
  recommendations : List String
  strengths : List String
  areasForImprovement : List String
  interviewDuration : Nat
  completionRate : ℚ
  detailedAnalysis : DetailedAnalysis
deriving DecidableEq

/-- `JobDescription` (the fields the modelled code reads; `type` renamed
`jdType`). -/
structure JobDescription where
  title : String
  company : String
  jdType : String
  level : String
  requirements : Option String
deriving DecidableEq

structure StudentInfo where
  name : String
  userId : Option String
deriving DecidableEq

inductive Status where
  | inProgress
  | stopped
  | completed
deriving DecidableEq

/-- `InterviewSession`. -/
structure InterviewSession where
  id : String
  userId : String
  jobDescription : JobDescription
  studentInfo : StudentInfo
  questions : List Question
  responses : List InterviewResponse
  result : Option InterviewResult
  status : Status
  createdAt : String
  duration : Nat
  currentQuestionIndex : Nat
  completedAt : Option String
deriving DecidableEq

/-! ## Question generation
(`useInterview.ts` lines 22-107 and `jd_gen_ques.ts` lines 9-40) -/

/-- Outcome of the `fetch` to `POST /generate_question`, as observed by the
caller: a successful response with a question list, a non-ok HTTP response
(which both functions turn into a thrown error), or a network error. -/
inductive FetchOutcome where
  | ok (questions : List String)
  | httpError (msg : String)
  | networkError
deriving DecidableEq

def FetchOutcome.isFailure : FetchOutcome → Bool
  | FetchOutcome.ok _ => false
  | FetchOutcome.httpError _ => true
  | FetchOutcome.networkError => true

/-- JavaScript's `Array.prototype.map((x, index) => ...)` starting at a
given index. -/
def mapIdxFrom (f : Nat → α → β) : Nat → List α → List β
  | _, [] => []
  | i, a :: as => f i a :: mapIdxFrom f (i + 1) as

/-- `generateFallbackQuestions` (`useInterview.ts` lines 81-107).  The first
requirement is `requirements?.split(',')[0] || 'relevant technologies'`:
JavaScript's `||` replaces both an absent requirements string and an empty
first split component. -/
def generateFallbackQuestions (jd : JobDescription) : List Question :=
  let title := jd.title
  let company := jd.company
  let firstReq :=
    match jd.requirements with
    | none => "relevant technologies"
    | some r =>
      let h := (r.splitOn ",").headD ""
      if h = "" then "relevant technologies" else h
  let fallbackQuestions :=
    if jd.jdType = "technical" then
      [s!"Tell me about your experience with {firstReq}.",
       s!"How would you approach solving a complex problem in {title}?",
       s!"Describe a challenging project you\x27ve worked on related to {company}\x27s domain.",
       s!"What interests you most about working at {company}?",
       "How do you stay updated with the latest trends in your field?",
       "Walk me through your problem-solving process for technical challenges."]
    else
      [s!"Tell me about yourself and why you\x27re interested in the {title} position at {company}.",
       "Describe a time when you had to work under pressure. How did you handle it?",
       s!"What do you know about {company} and why do you want to work here?",
       "Tell me about a time when you had to work with a difficult team member.",
       "Where do you see yourself in 5 years?",
       "What are your greatest strengths and how do they relate to this role?"]
  mapIdxFrom (fun index text =>
    { id := s!"fallback-{index}",
      text := text,
      qType := if jd.jdType = "technical" then "technical" else "behavioral",
      timeLimit := 120,
      difficulty := "medium",
      department := "general",
      category := "general" }) 0 fallbackQuestions

/-- `generateQuestionsFromBackend` (`useInterview.ts` lines 22-79): any
failure inside the `try` block (network error or a non-ok response, which is
re-thrown) is caught and answered with the static fallback set.  `now` is
`Date.now()` used for question ids. -/
def generateQuestionsFromBackend (jd : JobDescription) (outcome : FetchOutcome)
    (now : Nat) : List Question :=
  match outcome with
  | FetchOutcome.ok qs =>
    mapIdxFrom (fun index text =>
      { id := s!"q-{now}-{index}",
        text := text.trim,
        qType := if jd.jdType = "technical" then "technical" else "behavioral",
        timeLimit := 120,
        difficulty :=
          if jd.level = "entry" then "easy"
          else if jd.level = "senior" then "hard" else "medium",
        department := "general",
        category := if jd.jdType = "technical" then "technical-skills" else "general" }) 0 qs
  | _ => generateFallbackQuestions jd

/-- `generateQuestions` of the `useGeneratedQuestions` hook
(`jd_gen_ques.ts` lines 9-40): on any failure the `catch` branch records the
error message and returns the empty list. -/
def generateQuestions (outcome : FetchOutcome) (now : Nat) : List Question :=
  match outcome with
  | FetchOutcome.ok qs =>
    mapIdxFrom (fun idx text =>
      { id := s!"q-{now}-{idx}",
        text := text,
        qType := "technical",
        timeLimit := 120,
        difficulty := "medium",
        department := "general",
        category := "general" }) 0 qs
  | _ => []

/-! ## The interview session state machine
(`useInterview.ts` lines 204-426).  The hook state consists of
`currentSession`, `currentQuestionIndex` and `interviewStartTime`; the audio
recording state is modelled separately below. -/

/-- The `InterviewResponse` object built by `submitResponse` (lines
253-291).  `jc`/`jcl` are the two `Math.floor(Math.random() * 20)` jitters,
`tone` the randomly sampled emotional tone, and the two answer-regex
outcomes are oracle booleans (the keyword-regex outcome `kwMatch` only
applies when the job description has a requirements string; otherwise the
source uses `false`). -/
def mkResponse (questionId answer : String) (duration : Nat)
    (requirements : Option String) (jc jcl : Nat)
    (hasSpecificExamples hasQuantifiableResults kwMatch : Bool)
    (tone : String) (audio : Option Unit) : InterviewResponse :=
  let hasRelevantKeywords :=
    match requirements with
    | none => false
    | some _ => kwMatch
  let scores := computeScores jc jcl answer.length duration
    (uniqueKeywords answer).length hasSpecificExamples hasQuantifiableResults
    hasRelevantKeywords
  { questionId := questionId,
    answer := answer,
    audioBlob := audio,
    duration := duration,
    confidence := scores.1,
    clarity := scores.2.1,
    emotionalTone := tone,
    keywords := (uniqueKeywords answer).take 10,
    relevanceScore := scores.2.2 }

/-- The `InterviewResult` built by `completeInterview` (lines 334-421).
`now` is `Date.now()`, `startTime` the recorded `interviewStartTime`;
`jTech` is the `Math.floor(Math.random() * 20)` jitter of the
non-technical `technicalScore` branch and `jEmo` the
`Math.floor(Math.random() * 25)` jitter of `emotionalIntelligence`.
JavaScript's `r.relevanceScore || 70` also replaces a zero score. -/
def completeSessionResult (s : InterviewSession) (now startTime jTech jEmo : Nat) :
    InterviewResult :=
  let responses := s.responses
  let company := s.jobDescription.company
  let avgConfidence : ℚ :=
    ((responses.map (fun r => (r.confidence : ℚ))).sum) / (responses.length : ℚ)
  let avgClarity : ℚ :=
    ((responses.map (fun r => (r.clarity : ℚ))).sum) / (responses.length : ℚ)
  let avgRelevance : ℚ :=
    ((responses.map (fun r =>
      if r.relevanceScore = 0 then (70 : ℚ) else (r.relevanceScore : ℚ))).sum) /
      (responses.length : ℚ)
  let interviewDuration := (now - startTime) / 1000
  let completionRate : ℚ := ((responses.length : ℚ) / (s.questions.length : ℚ)) * 100
  let isTechnical := s.jobDescription.jdType = "technical"
  let technicalScore : Int :=
    if isTechnical then ⌊avgConfidence * (7 / 10) + avgRelevance * (3 / 10)⌋
    else (jTech : Int) + 75
  let communicationScore : Int := ⌊avgClarity * (8 / 10) + avgConfidence * (2 / 10)⌋
  let overallScore : Int := ⌊(avgConfidence + avgClarity + avgRelevance + completionRate) / 4⌋
  { overallScore := overallScore,
    categoryScores :=
      { communication := communicationScore,
        technical := technicalScore,
        confidence := ⌊avgConfidence⌋,
        clarity := ⌊avgClarity⌋,
        emotionalIntelligence := (jEmo : Int) + 70 },
    responses := responses,
    feedback :=
      ["Your responses demonstrated good structure and thoughtfulness.",
       "You maintained professional composure throughout the interview.",
       if avgRelevance > 80 then "Your examples were highly relevant and well-articulated."
       else "Your examples were relevant and well-articulated.",
       if isTechnical then "Your technical knowledge appears solid for this role."
       else "Consider providing more quantified achievements in future interviews."],
    recommendations :=
      ["Practice the STAR method for behavioral questions",
       s!"Research more about {company}\x27s recent developments",
       if avgClarity < 80 then "Work on reducing filler words for clearer communication"
       else "Continue maintaining clear communication",
       if isTechnical then "Continue building hands-on experience with relevant technologies"
       else "Prepare more specific examples of your achievements"],
    strengths :=
      ["Clear and articulate communication",
       "Professional demeanor and confidence",
       if avgRelevance > 75 then "Excellent use of relevant examples"
       else "Good use of relevant examples",
       if isTechnical then "Strong technical knowledge demonstration"
       else "Strong understanding of role requirements"],
    areasForImprovement :=
      [if avgRelevance < 70 then "Provide more specific and relevant examples"
       else "Could provide more quantified results",
       "Body language and eye contact",
       if isTechnical then "Explaining complex concepts more simply"
       else "Elaborating on leadership experiences",
       "Asking more insightful questions about the role"],
    interviewDuration := interviewDuration,
    completionRate := completionRate,
    detailedAnalysis :=
      { responseQuality := ⌊avgRelevance⌋,
        technicalAccuracy := technicalScore,
        communicationSkills := communicationScore,
        problemSolvingAbility := ⌊avgConfidence * (8 / 10) + avgRelevance * (2 / 10)⌋ } }

/-- The React state of `useInterview` acted on by the session operations. -/
structure HookState where
  currentSession : Option InterviewSession
  currentQuestionIndex : Nat
  interviewStartTime : Nat
deriving DecidableEq

def hookInit : HookState :=
  { currentSession := none, currentQuestionIndex := 0, interviewStartTime := 0 }

/-- `startInterview` (lines 204-234).  `newId` is the random session id,
`outcome` the backend fetch outcome, `now` is `Date.now()` and `createdAt`
the ISO timestamp.  JavaScript's `studentInfo.userId || 'current-user'`
also replaces an empty id. -/
def startInterview (_st : HookState) (info : StudentInfo) (jd : JobDescription)
    (newId : String) (outcome : FetchOutcome) (now : Nat) (createdAt : String) :
    HookState :=
  let questions := generateQuestionsFromBackend jd outcome now
  { currentSession := some
      { id := newId,
        userId :=
          match info.userId with
          | none => "current-user"
          | some u => if u = "" then "current-user" else u,
        jobDescription := jd,
        studentInfo := info,
        questions := questions,
        responses := [],
        result := none,
        status := Status.inProgress,
        createdAt := createdAt,
        duration := 0,
        currentQuestionIndex := 0,
        completedAt := none },
    currentQuestionIndex := 0,
    interviewStartTime := now }

/-- `submitResponse` (lines 241-299): early return when there is no current
session, otherwise the freshly built response is appended to the session's
response list. -/
def submitResponse (st : HookState) (questionId answer : String) (duration : Nat)
    (jc jcl : Nat) (hasSpecificExamples hasQuantifiableResults kwMatch : Bool)
    (tone : String) (audio : Option Unit) : HookState :=
  match st.currentSession with
  | none => st
  | some s =>
    let updated := { s with responses := s.responses ++
      [mkResponse questionId answer duration s.jobDescription.requirements
        jc jcl hasSpecificExamples hasQuantifiableResults kwMatch tone audio] }
    { st with currentSession := some updated }

/-- `nextQuestion` (lines 301-316): advances the question pointer when one
is left, returning whether it advanced.  It never touches the session. -/
def nextQuestion (st : HookState) : HookState × Bool :=
  match st.currentSession with
  | none => (st, false)
  | some s =>
    if st.currentQuestionIndex < s.questions.length - 1 then
      ({ st with currentQuestionIndex := st.currentQuestionIndex + 1 }, true)
    else (st, false)

/-- `stopInterview` (lines 318-332): early return without a session,
otherwise the session is marked stopped with its duration and completion
timestamp; `result` and `responses` are untouched. -/
def stopInterview (st : HookState) (now : Nat) (completedAt : String) : HookState :=
  match st.currentSession with
  | none => st
  | some s =>
    let stopped := { s with status := Status.stopped,
                             duration := (now - st.interviewStartTime) / 1000,
                             completedAt := some completedAt }
    { st with currentSession := some stopped }

/-- `completeInterview` (lines 334-421): early return (`null`) without a
session or with an empty response list; otherwise the result is computed and
stored together with the `completed` status.  The guard does not inspect the
current status. -/
def completeInterview (st : HookState) (now : Nat) (completedAt : String)
    (jTech jEmo : Nat) : HookState :=
  match st.currentSession with
  | none => st
  | some s =>
    if s.responses.isEmpty then st
    else
      let completed := { s with
        result := some (completeSessionResult s now st.interviewStartTime jTech jEmo),
        status := Status.completed,
        duration := (now - st.interviewStartTime) / 1000,
        completedAt := some completedAt }
      { st with currentSession := some completed }

/-- One user-visible operation of the hook, with its nondeterministic
browser inputs. -/
inductive Op where
  | start (info : StudentInfo) (jd : JobDescription) (newId : String)
      (outcome : FetchOutcome) (now : Nat) (createdAt : String)
  | submit (questionId answer : String) (duration jc jcl : Nat)
      (hasSpecificExamples hasQuantifiableResults kwMatch : Bool)
      (tone : String) (audio : Option Unit)
  | next
  | stop (now : Nat) (completedAt : String)
  | complete (now : Nat) (completedAt : String) (jTech jEmo : Nat)
deriving DecidableEq

def Op.isStart : Op → Bool
  | Op.start .. => true
  | _ => false

def step (st : HookState) : Op → HookState
  | Op.start info jd newId outcome now createdAt =>
    startInterview st info jd newId outcome now createdAt
  | Op.submit questionId answer duration jc jcl hasEx hasQuant kwMatch tone audio =>
    submitResponse st questionId answer duration jc jcl hasEx hasQuant kwMatch tone audio
  | Op.next => (nextQuestion st).1
  | Op.stop now completedAt => stopInterview st now completedAt
  | Op.complete now completedAt jTech jEmo =>
    completeInterview st now completedAt jTech jEmo

def run (st : HookState) (ops : List Op) : HookState :=
  ops.foldl step st

/-- The `result` field of the current session, when a session exists. -/
def sessionResult (st : HookState) : Option (Option InterviewResult) :=
  st.currentSession.map (fun s => s.result)

/-- The status of the current session, when a session exists. -/
def sessionStatus (st : HookState) : Option Status :=
  st.currentSession.map (fun s => s.status)

/-- Whether executing `op` in state `st` takes the branch of
`completeInterview` that assigns the session's `result` field (the only
branch in the hook that writes it). -/
def writesResult (st : HookState) : Op → Bool
  | Op.complete .. =>
    match st.currentSession with
    | none => false
    | some s => !s.responses.isEmpty
  | _ => false

/-- Number of `result` assignments performed along a trace. -/
def resultWriteCount (st : HookState) : List Op → Nat
  | [] => 0
  | op :: ops =>
    (if writesResult st op then 1 else 0) + resultWriteCount (step st op) ops

/-! ## Audio recording
(`useInterview.ts`, `startListening` lines 130-176 and `stopListening`
lines 178-202).  Every `MediaRecorder` ever created by `startListening` is
tracked in a list of recording flags, indexed by creation order;
`mediaRecorderRef` holds the index of the most recently created one. -/

structure RecState where
  recorders : List Bool
  mediaRecorderRef : Option Nat
  isRecording : Bool
deriving DecidableEq

def recInit : RecState :=
  { recorders := [], mediaRecorderRef := none, isRecording := false }

inductive RecOp where
  | startL
  | stopL
deriving DecidableEq

/-- `startListening` unconditionally creates and starts a fresh
`MediaRecorder`, overwrites `mediaRecorderRef` with it and sets
`isRecording`; `stopListening` stops the recorder held by the ref, but only
when the ref is set and `isRecording` is true. -/
def recStep (s : RecState) : RecOp → RecState
  | RecOp.startL =>
    { recorders := s.recorders ++ [true],
      mediaRecorderRef := some s.recorders.length,
      isRecording := true }
  | RecOp.stopL =>
    match s.mediaRecorderRef with
    | none => s
    | some i =>
      if s.isRecording then
        { s with recorders := s.recorders.set i false, isRecording := false }
      else s

def recRun (s : RecState) (ops : List RecOp) : RecState :=
  ops.foldl recStep s

/-- Number of `MediaRecorder`s currently recording. -/
def countRecording (s : RecState) : Nat :=
  s.recorders.countP (fun b => b)

/-- Runs a call sequence under the discipline that `startListening` is
never invoked while a recording is in flight (`none` when the sequence
violates it). -/
def guardedRecRun (s : RecState) : List RecOp → Option RecState
  | [] => some s
  | RecOp.startL :: ops =>
    if s.isRecording then none
    else guardedRecRun (recStep s RecOp.startL) ops
  | RecOp.stopL :: ops => guardedRecRun (recStep s RecOp.stopL) ops

/-! ## Camera face detection
(`useCamera.ts` lines 113-221).  Each 1000 ms interval tick runs
`detectFace`; its browser inputs (whether the video/canvas are ready, the
backend outcome and the captured frame) are explicit parameters. -/

/-- The interval period of `startFaceDetection`
(`setInterval(detectFace, 1000)`, line 220). -/
def detectionIntervalMs : Nat := 1000

structure CamState where
  backendDetectionEnabled : Bool
  faceDetected : Bool
  detectionFaceCount : Option Nat
  eyeBlinkCount : Nat
  lastBlinkTime : Nat
  error : Option String
deriving DecidableEq

/-- Initial `useCamera` state: backend detection enabled, no face, no
error.  The `error` state of the hook is written only by `startCamera`;
none of the detection functions touch it. -/
def camInit : CamState :=
  { backendDetectionEnabled := true, faceDetected := false,
    detectionFaceCount := none, eyeBlinkCount := 0, lastBlinkTime := 0,
    error := none }

/-- Outcome of the `fetch` to `POST /detect`: a successful response with
`success: true` and a face list (modelled by its length), or any failure
(network error or `success: false`, both of which reach the `catch`). -/
inductive BackendOutcome where
  | ok (faces : Nat)
  | failure
deriving DecidableEq

/-- `performBackendDetection` (lines 114-149): returns the updated state,
the value the promise resolves to (`none` models `null`) and whether the
backend endpoint was actually called.  When the video is not ready it
returns `null` before fetching; on failure the `catch` disables backend
detection and returns `null` without setting any error state. -/
def performBackendDetection (s : CamState) (videoReady : Bool)
    (outcome : BackendOutcome) : CamState × Option Nat × Bool :=
  if videoReady = false then (s, none, false)
  else
    match outcome with
    | BackendOutcome.ok faces =>
      ({ s with detectionFaceCount := some faces,
                faceDetected := decide (0 < faces) }, some faces, true)
    | BackendOutcome.failure =>
      ({ s with backendDetectionEnabled := false }, none, true)

/-- `performClientSideDetection` (lines 171-217): skin-tone detection on
the captured frame plus the naive blink counter (`now` is `Date.now()`). -/
def performClientSideDetection (s : CamState) (videoReady : Bool)
    (frame : List Pixel) (now : Nat) : CamState :=
  if videoReady = false then s
  else
    let fp := facePresent frame
    let s := { s with faceDetected := fp }
    if fp then
      if 2000 < now - s.lastBlinkTime then
        { s with eyeBlinkCount := s.eyeBlinkCount + 1, lastBlinkTime := now }
      else s
    else s

/-- One tick of the `detectFace` interval (lines 155-169): backend
detection first when enabled, falling back to the client-side heuristic
whenever it resolves to `null`; client-side only when disabled.  The
returned boolean reports whether the backend endpoint was polled. -/
def detectFaceTick (s : CamState) (videoReady : Bool) (outcome : BackendOutcome)
    (frame : List Pixel) (now : Nat) : CamState × Bool :=
  if s.backendDetectionEnabled then
    let r := performBackendDetection s videoReady outcome
    match r.2.1 with
    | none => (performClientSideDetection r.1 videoReady frame now, r.2.2)
    | some _ => (r.1, r.2.2)
  else
    (performClientSideDetection s videoReady frame now, false)

/-- The browser inputs of one interval tick. -/
structure CamTickInput where
  videoReady : Bool
  outcome : BackendOutcome
  frame : List Pixel
  now : Nat

/-- Runs a sequence of interval ticks, collecting for each tick whether the
backend endpoint was polled. -/
def runCam (s : CamState) : List CamTickInput → CamState × List Bool
  | [] => (s, [])
  | t :: ts =>
    let r := detectFaceTick s t.videoReady t.outcome t.frame t.now
    let rest := runCam r.1 ts
    (rest.1, r.2 :: rest.2)

/-! ## Analytics polling
(`InterviewAnalytics.tsx` lines 29-54).  The effect runs on mount and
whenever `sessionId`/`isVisible` change (after cleaning up the previous
interval) and on unmount only the cleanup runs.  `fetchCount` counts the
fetches issued to the analytics endpoint. -/

/-- The polling period (`setInterval(fetchAnalytics, 5000)`, line 50). -/
def analyticsIntervalMs : Nat := 5000

structure AnalyticsState where
  installedIntervalMs : Option Nat
  fetchCount : Nat
deriving DecidableEq

def analyticsInit : AnalyticsState :=
  { installedIntervalMs := none, fetchCount := 0 }

/-- The effect cleanup (`return () => clearInterval(interval)`). -/
def analyticsCleanup (s : AnalyticsState) : AnalyticsState :=
  { s with installedIntervalMs := none }

/-- The effect body: `if (!isVisible) return;` installs nothing and fetches
nothing; otherwise the 5-second interval is installed and an initial fetch
is issued. -/
def analyticsEffect (isVisible : Bool) (s : AnalyticsState) : AnalyticsState :=
  if isVisible = false then s
  else { installedIntervalMs := some analyticsIntervalMs,
         fetchCount := s.fetchCount + 1 }

inductive AnalyticsEvent where
  | mount (isVisible : Bool)
  | depsChange (isVisible : Bool)
  | tick
  | unmount
deriving DecidableEq

def analyticsStep (s : AnalyticsState) : AnalyticsEvent → AnalyticsState
  | AnalyticsEvent.mount v => analyticsEffect v s
  | AnalyticsEvent.depsChange v => analyticsEffect v (analyticsCleanup s)
  | AnalyticsEvent.tick =>
    if s.installedIntervalMs.isSome then { s with fetchCount := s.fetchCount + 1 }
    else s
  | AnalyticsEvent.unmount => analyticsCleanup s

def analyticsRun (s : AnalyticsState) (events : List AnalyticsEvent) : AnalyticsState :=
  events.foldl analyticsStep s

/-- Whether the component is mounted with `isVisible` after the events. -/
def visibleAfter : Bool → List AnalyticsEvent → Bool
  | v, [] => v
  | _, AnalyticsEvent.mount w :: es => visibleAfter w es
  | _, AnalyticsEvent.depsChange w :: es => visibleAfter w es
  | v, AnalyticsEvent.tick :: es => visibleAfter v es
  | _, AnalyticsEvent.unmount :: es => visibleAfter false es

/-! ## Theorems -/

/-- `m` occurs contiguously inside `l`. -/
def SubSeg (m l : List α) : Prop := ∃ s t, l = s ++ m ++ t

/-- The skin-tone condition exactly as the claim states it. -/
def skinToneClaim (p : Pixel) : Prop :=
  95 < p.r ∧ 40 < p.g ∧ 20 < p.b ∧
  15 < max p.r (max p.g p.b) - min p.r (min p.g p.b) ∧
  15 < ((p.r : Int) - (p.g : Int)).natAbs ∧ p.g < p.r ∧ p.b < p.r

instance (p : Pixel) : Decidable (skinToneClaim p) := by
  unfold skinToneClaim
  infer_instance

theorem ratio_gt_two_percent_iff (c n : Nat) (hc : c ≤ n) :
    ((2 : ℚ) / 100 < (c : ℚ) / (n : ℚ)) ↔ n < 50 * c := by
  rcases Nat.eq_zero_or_pos n with h0 | hpos
  · subst h0
    have hc0 : c = 0 := Nat.le_zero.mp hc
    subst hc0
    norm_num
  · have hn : (0 : ℚ) < (n : ℚ) := by exact_mod_cast hpos
    rw [div_lt_div_iff₀ (by norm_num) hn]
    constructor
    · intro h
      have h' : 2 * n < c * 100 := by exact_mod_cast h
      omega
    · intro h
      have h' : 2 * n < c * 100 := by omega
      exact_mod_cast h'

/-- C9: the client-side fallback face detector reports a face present if
and only if the fraction of skin-tone pixels in the captured frame exceeds
0.02, where a pixel (r,g,b) counts as skin-tone exactly when r > 95,
g > 40, b > 20, max(r,g,b) - min(r,g,b) > 15, |r - g| > 15, r > g and
r > b.  The second conjunct restates the threshold without rational
division. -/
theorem C9_client_side_face_detection (frame : List Pixel) :
    (facePresent frame = true ↔
      (2 : ℚ) / 100 <
        ((frame.countP (fun p => decide (skinToneClaim p)) : ℚ) / (frame.length : ℚ))) ∧
    (facePresent frame = true ↔
      frame.length < 50 * frame.countP (fun p => decide (skinToneClaim p))) := by
  have hfun : (fun p => decide (skinToneClaim p)) = isSkinPixel := by
    funext p
    unfold isSkinPixel skinToneClaim
    exact decide_eq_decide.mpr Iff.rfl
  have hcount : frame.countP (fun p => decide (skinToneClaim p)) = skinPixelCount frame := by
    rw [hfun, skinPixelCount, List.countP_eq_length_filter]
  have hle : skinPixelCount frame ≤ frame.length := by
    rw [skinPixelCount]
    exact List.length_filter_le _ _
  constructor
  · rw [hcount]
    simp only [facePresent, skinRatio, decide_eq_true_iff, gt_iff_lt]
  · rw [hcount]
    simp only [facePresent, skinRatio, decide_eq_true_iff, gt_iff_lt]
    exact ratio_gt_two_percent_iff _ _ hle

/-- C8: for every answer, duration, regex outcome and jitter pair (each
jitter is `Math.floor(Math.random() * 20)`, hence `< 20`), the scores of
the response built by `submitResponse` satisfy `confidence ∈ [70, 100]`,
`clarity ∈ [75, 100]` and `relevanceScore ∈ [60, 100]`. -/
theorem C8_heuristic_scores_bounded (questionId answer : String) (duration : Nat)
    (requirements : Option String) (jc jcl : Nat)
    (hasSpecificExamples hasQuantifiableResults kwMatch : Bool)
    (tone : String) (audio : Option Unit)
    (hjc : jc < 20) (hjcl : jcl < 20) :
    70 ≤ (mkResponse questionId answer duration requirements jc jcl
      hasSpecificExamples hasQuantifiableResults kwMatch tone audio).confidence ∧
    (mkResponse questionId answer duration requirements jc jcl
      hasSpecificExamples hasQuantifiableResults kwMatch tone audio).confidence ≤ 100 ∧
    75 ≤ (mkResponse questionId answer duration requirements jc jcl
      hasSpecificExamples hasQuantifiableResults kwMatch tone audio).clarity ∧
    (mkResponse questionId answer duration requirements jc jcl
      hasSpecificExamples hasQuantifiableResults kwMatch tone audio).clarity ≤ 100 ∧
    60 ≤ (mkResponse questionId answer duration requirements jc jcl
      hasSpecificExamples hasQuantifiableResults kwMatch tone audio).relevanceScore ∧
    (mkResponse questionId answer duration requirements jc jcl
      hasSpecificExamples hasQuantifiableResults kwMatch tone audio).relevanceScore ≤ 100 := by
  have h : ∀ (len dur kw : Nat) (a b c : Bool),
      70 ≤ (computeScores jc jcl len dur kw a b c).1 ∧
      (computeScores jc jcl len dur kw a b c).1 ≤ 100 ∧
      75 ≤ (computeScores jc jcl len dur kw a b c).2.1 ∧
      (computeScores jc jcl len dur kw a b c).2.1 ≤ 100 ∧
      60 ≤ (computeScores jc jcl len dur kw a b c).2.2 ∧
      (computeScores jc jcl len dur kw a b c).2.2 ≤ 100 := by
    intro len dur kw a b c
    simp only [computeScores]
    split_ifs <;> refine ⟨?_, ?_, ?_, ?_, ?_, ?_⟩ <;> omega
  simp only [mkResponse]
  exact h answer.length duration (uniqueKeywords answer).length _ _ _

/-- Witness for C8 at a concrete response. -/
theorem C8_heuristic_scores_bounded_witness :
    3 < 20 ∧ 7 < 20 ∧
    (70 ≤ (mkResponse "q1" "some answer" 40 none 3 7 true false false "calm" none).confidence ∧
     (mkResponse "q1" "some answer" 40 none 3 7 true false false "calm" none).confidence ≤ 100 ∧
     75 ≤ (mkResponse "q1" "some answer" 40 none 3 7 true false false "calm" none).clarity ∧
     (mkResponse "q1" "some answer" 40 none 3 7 true false false "calm" none).clarity ≤ 100 ∧
     60 ≤ (mkResponse "q1" "some answer" 40 none 3 7 true false false "calm" none).relevanceScore ∧
     (mkResponse "q1" "some answer" 40 none 3 7 true false false "calm" none).relevanceScore ≤ 100) :=
  ⟨by decide, by decide,
    C8_heuristic_scores_bounded "q1" "some answer" 40 none 3 7 true false false "calm" none
      (by decide) (by decide)⟩

theorem subSeg_cons {m l : List α} (c : α) (h : SubSeg m l) : SubSeg m (c :: l) := by
  obtain ⟨s, t, hst⟩ := h
  exact ⟨c :: s, t, by simp [hst]⟩

/-- Every run produced by `wordRunsFuel` occurs contiguously in the input
and consists of word characters only. -/
theorem mem_wordRunsFuel : ∀ (n : Nat) (l : List Char),
    ∀ r ∈ wordRunsFuel n l, SubSeg r l ∧ ∀ c ∈ r, isWordChar c = true := by
  intro n
  induction n with
  | zero =>
    intro l r hr
    match l with
    | [] => rw [wordRunsFuel_nil] at hr; simp at hr
    | c :: cs => simp only [wordRunsFuel] at hr; simp at hr
  | succ n ih =>
    intro l r hr
    match l with
    | [] => rw [wordRunsFuel_nil] at hr; simp at hr
    | c :: cs =>
      simp only [wordRunsFuel] at hr
      by_cases hc : isWordChar c = true
      · rw [if_pos hc] at hr
        rcases List.mem_cons.mp hr with hhead | htail
        · subst hhead
          refine ⟨⟨[], cs.dropWhile isWordChar, ?_⟩, ?_⟩
          · simp [List.takeWhile_append_dropWhile]
          · intro x hx
            rcases List.mem_cons.mp hx with hx0 | hxs
            · subst hx0; exact hc
            · exact List.mem_takeWhile_imp hxs
        · obtain ⟨⟨s, t, hst⟩, hchars⟩ := ih (cs.dropWhile isWordChar) r htail
          refine ⟨⟨c :: cs.takeWhile isWordChar ++ s, t, ?_⟩, hchars⟩
          calc c :: cs
              = c :: (cs.takeWhile isWordChar ++ cs.dropWhile isWordChar) := by
                rw [List.takeWhile_append_dropWhile]
            _ = (c :: cs.takeWhile isWordChar ++ s) ++ r ++ t := by
                rw [hst]; simp
      · rw [if_neg hc] at hr
        obtain ⟨hseg, hchars⟩ := ih cs r hr
        exact ⟨subSeg_cons c hseg, hchars⟩

/-- Every run produced by `wordRuns` occurs contiguously in the input and
consists of word characters only. -/
theorem mem_wordRuns (l : List Char) (r : List Char) (hr : r ∈ wordRuns l) :
    SubSeg r l ∧ ∀ c ∈ r, isWordChar c = true :=
  mem_wordRunsFuel l.length l r hr

theorem mem_dedupFirstAux {w : String} :
    ∀ {seen l : List String}, w ∈ dedupFirstAux seen l → w ∈ l := by
  intro seen l
  induction l generalizing seen with
  | nil => intro h; simp [dedupFirstAux] at h
  | cons x xs ih =>
    intro h
    rw [dedupFirstAux] at h
    by_cases hx : x ∈ seen
    · rw [if_pos hx] at h
      exact List.mem_cons_of_mem x (ih h)
    · rw [if_neg hx] at h
      rcases List.mem_cons.mp h with h0 | h1
      · exact h0 ▸ List.mem_cons_self x xs
      · exact List.mem_cons_of_mem x (ih h1)

theorem dedupFirstAux_not_mem_seen {w : String} :
    ∀ {seen l : List String}, w ∈ dedupFirstAux seen l → w ∉ seen := by
  intro seen l
  induction l generalizing seen with
  | nil => intro h; simp [dedupFirstAux] at h
  | cons x xs ih =>
    intro h
    rw [dedupFirstAux] at h
    by_cases hx : x ∈ seen
    · rw [if_pos hx] at h
      exact ih h
    · rw [if_neg hx] at h
      rcases List.mem_cons.mp h with h0 | h1
      · subst h0; exact hx
      · intro hmem
        exact ih h1 (List.mem_cons_of_mem x hmem)

theorem dedupFirstAux_nodup : ∀ (seen l : List String), (dedupFirstAux seen l).Nodup := by
  intro seen l
  induction l generalizing seen with
  | nil => simp [dedupFirstAux]
  | cons x xs ih =>
    rw [dedupFirstAux]
    by_cases hx : x ∈ seen
    · rw [if_pos hx]
      exact ih seen
    · rw [if_neg hx]
      refine List.nodup_cons.mpr ⟨?_, ih (x :: seen)⟩
      intro hmem
      exact dedupFirstAux_not_mem_seen hmem (List.mem_cons_self x seen)

/-- A contiguous segment of a mapped list is the image of a contiguous
segment of the original list. -/
theorem subSeg_map_preimage {l : List α} {m : List β} (f : α → β)
    (h : SubSeg m (l.map f)) : ∃ m₀, SubSeg m₀ l ∧ m₀.map f = m := by
  obtain ⟨s, t, hst⟩ := h
  refine ⟨(l.drop s.length).take m.length,
    ⟨l.take s.length, (l.drop s.length).drop m.length, ?_⟩, ?_⟩
  · have hmid : (l.drop s.length).take m.length ++ (l.drop s.length).drop m.length =
        l.drop s.length := List.take_append_drop _ _
    calc l = l.take s.length ++ l.drop s.length := (List.take_append_drop _ _).symm
      _ = l.take s.length ++ ((l.drop s.length).take m.length ++
            (l.drop s.length).drop m.length) := by rw [hmid]
      _ = l.take s.length ++ (l.drop s.length).take m.length ++
            (l.drop s.length).drop m.length := by rw [List.append_assoc]
  · have hdrop : (l.drop s.length).map f = m ++ t := by
      rw [List.map_drop, hst, List.append_assoc, List.drop_left]
    rw [List.map_take, hdrop, List.take_left]

/-- C10: the keyword list stored in a response by `submitResponse` has at
most 10 entries, every entry is a lowercased word of at least 4 characters
occurring contiguously in the answer, and the entries are pairwise
distinct. -/
theorem C10_keyword_extraction (questionId answer : String) (duration : Nat)
    (requirements : Option String) (jc jcl : Nat)
    (hasSpecificExamples hasQuantifiableResults kwMatch : Bool)
    (tone : String) (audio : Option Unit) :
    (mkResponse questionId answer duration requirements jc jcl
      hasSpecificExamples hasQuantifiableResults kwMatch tone audio).keywords.length ≤ 10 ∧
    (mkResponse questionId answer duration requirements jc jcl
      hasSpecificExamples hasQuantifiableResults kwMatch tone audio).keywords.Nodup ∧
    ∀ w ∈ (mkResponse questionId answer duration requirements jc jcl
      hasSpecificExamples hasQuantifiableResults kwMatch tone audio).keywords,
      4 ≤ w.length ∧ (∀ c ∈ w.data, isWordChar c = true) ∧
      ∃ seg, SubSeg seg answer.data ∧ seg.map Char.toLower = w.data := by
  have hk : (mkResponse questionId answer duration requirements jc jcl
      hasSpecificExamples hasQuantifiableResults kwMatch tone audio).keywords =
      (uniqueKeywords answer).take 10 := rfl
  refine ⟨?_, ?_, ?_⟩
  · rw [hk, List.length_take]
    exact min_le_left _ _
  · rw [hk]
    exact (dedupFirstAux_nodup [] _).sublist (List.take_sublist _ _)
  · intro w hw
    rw [hk] at hw
    have hw1 : w ∈ uniqueKeywords answer := List.take_subset _ _ hw
    have hw2 : w ∈ matchKeywords (lowerStr answer) := mem_dedupFirstAux hw1
    rw [matchKeywords] at hw2
    obtain ⟨r, hrmem, hrw⟩ := List.mem_map.mp hw2
    obtain ⟨hruns, hrlen⟩ := List.mem_filter.mp hrmem
    have hdata : w.data = r := by rw [← hrw]
    have hlen : 4 ≤ r.length := by simpa using hrlen
    obtain ⟨hseg, hchars⟩ := mem_wordRuns (lowerStr answer).data r hruns
    have hmapped : SubSeg r (answer.data.map Char.toLower) := hseg
    obtain ⟨seg, hsegsub, hsegmap⟩ := subSeg_map_preimage Char.toLower hmapped
    refine ⟨?_, ?_, seg, hsegsub, ?_⟩
    · show 4 ≤ w.data.length
      rw [hdata]
      exact hlen
    · intro c hc
      exact hchars c (by rw [← hdata]; exact hc)
    · rw [hsegmap, hdata]

/-- Witness for C10 at a concrete answer with repeated and short words. -/
theorem C10_keyword_extraction_witness :
    ((mkResponse "q1" "Hello hello world abc ab" 10 none 0 0 false false false "calm"
        none).keywords.length ≤ 10 ∧
     (mkResponse "q1" "Hello hello world abc ab" 10 none 0 0 false false false "calm"
        none).keywords.Nodup ∧
     ∀ w ∈ (mkResponse "q1" "Hello hello world abc ab" 10 none 0 0 false false false "calm"
        none).keywords,
       4 ≤ w.length ∧ (∀ c ∈ w.data, isWordChar c = true) ∧
       ∃ seg, SubSeg seg ("Hello hello world abc ab" : String).data ∧
         seg.map Char.toLower = w.data) ∧
    (mkResponse "q1" "Hello hello world abc ab" 10 none 0 0 false false false "calm"
        none).keywords = ["hello", "world"] :=
  ⟨C10_keyword_extraction "q1" "Hello hello world abc ab" 10 none 0 0 false false false
      "calm" none,
    by decide⟩

theorem mapIdxFrom_length (f : Nat → α → β) : ∀ (i : Nat) (l : List α),
    (mapIdxFrom f i l).length = l.length := by
  intro i l
  induction l generalizing i with
  | nil => rfl
  | cons a as ih => simp [mapIdxFrom, ih]

theorem mem_mapIdxFrom {f : Nat → α → β} {b : β} :
    ∀ {i : Nat} {l : List α}, b ∈ mapIdxFrom f i l → ∃ j a, a ∈ l ∧ b = f j a := by
  intro i l
  induction l generalizing i with
  | nil => intro h; simp [mapIdxFrom] at h
  | cons a as ih =>
    intro h
    rcases List.mem_cons.mp h with h0 | h1
    · exact ⟨i, a, List.mem_cons_self a as, h0⟩
    · obtain ⟨j, x, hx, hb⟩ := ih h1
      exact ⟨j, x, List.mem_cons_of_mem a hx, hb⟩

/-- C5 (counterexample): the `useGeneratedQuestions` acquisition hook
returns the empty list — not the 6-question fallback set — when the backend
request fails, refuting "on failure the returned list is the 6
predetermined questions ... never an empty list" for this acquisition
function. -/
theorem C5_counterexample :
    generateQuestions FetchOutcome.networkError 0 = [] ∧
    FetchOutcome.networkError.isFailure = true ∧
    ¬ (∀ (o : FetchOutcome) (now : Nat), o.isFailure = true →
        generateQuestions o now ≠ []) :=
  ⟨rfl, rfl, fun h => h FetchOutcome.networkError 0 rfl rfl⟩

/-- C5 (amended): `generateQuestionsFromBackend` answers every failed
request with the fixed 6-question fallback set of the matching type, which
is never empty; the separate `useGeneratedQuestions.generateQuestions`
hook instead returns the empty list on failure. -/
theorem C5_question_acquisition_fallback (jd : JobDescription)
    (outcome : FetchOutcome) (now : Nat) (hfail : outcome.isFailure = true) :
    generateQuestionsFromBackend jd outcome now = generateFallbackQuestions jd ∧
    (generateFallbackQuestions jd).length = 6 ∧
    generateFallbackQuestions jd ≠ [] ∧
    (∀ q ∈ generateFallbackQuestions jd,
      q.qType = (if jd.jdType = "technical" then "technical" else "behavioral")) ∧
    generateQuestions outcome now = [] := by
  have hboth : generateQuestionsFromBackend jd outcome now = generateFallbackQuestions jd ∧
      generateQuestions outcome now = [] := by
    cases outcome with
    | ok qs => simp [FetchOutcome.isFailure] at hfail
    | httpError msg => exact ⟨rfl, rfl⟩
    | networkError => exact ⟨rfl, rfl⟩
  have hlen : (generateFallbackQuestions jd).length = 6 := by
    rw [generateFallbackQuestions]
    by_cases h : jd.jdType = "technical" <;> simp [h, mapIdxFrom_length]
  refine ⟨hboth.1, hlen, ?_, ?_, hboth.2⟩
  · intro hnil
    rw [hnil] at hlen
    simp at hlen
  · intro q hq
    simp only [generateFallbackQuestions] at hq
    obtain ⟨j, a, _, hqa⟩ := mem_mapIdxFrom hq
    rw [hqa]

/-- Witness for the amended C5 at a concrete technical job description and
a network error. -/
theorem C5_question_acquisition_fallback_witness :
    FetchOutcome.networkError.isFailure = true ∧
    (generateQuestionsFromBackend ⟨"Engineer", "Acme", "technical", "entry", none⟩
        FetchOutcome.networkError 0 =
      generateFallbackQuestions ⟨"Engineer", "Acme", "technical", "entry", none⟩ ∧
    (generateFallbackQuestions
        (⟨"Engineer", "Acme", "technical", "entry", none⟩ : JobDescription)).length = 6 ∧
    generateFallbackQuestions
        (⟨"Engineer", "Acme", "technical", "entry", none⟩ : JobDescription) ≠ [] ∧
    (∀ q ∈ generateFallbackQuestions
        (⟨"Engineer", "Acme", "technical", "entry", none⟩ : JobDescription),
      q.qType = (if (⟨"Engineer", "Acme", "technical", "entry", none⟩ :
          JobDescription).jdType = "technical" then "technical" else "behavioral")) ∧
    generateQuestions FetchOutcome.networkError 0 = []) :=
  ⟨rfl, C5_question_acquisition_fallback ⟨"Engineer", "Acme", "technical", "entry", none⟩
    FetchOutcome.networkError 0 rfl⟩

/-- C6 (counterexample): after a single backend failure the detection
interval keeps running but no longer polls the remote endpoint (the code
permanently disables backend detection), refuting "polls the remote
face-detection endpoint once each second while detection is running". -/
theorem C6_counterexample :
    (runCam camInit [⟨true, BackendOutcome.failure, [], 0⟩,
        ⟨true, BackendOutcome.ok 1, [], 1000⟩]).2 = [true, false] ∧
    ¬ (∀ (ticks : List CamTickInput), (∀ t ∈ ticks, t.videoReady = true) →
        ∀ b ∈ (runCam camInit ticks).2, b = true) := by
  have e : (runCam camInit [⟨true, BackendOutcome.failure, [], 0⟩,
      ⟨true, BackendOutcome.ok 1, [], 1000⟩]).2 = [true, false] := by
    have hf : facePresent [] = false := by
      simp [facePresent, skinRatio, skinPixelCount]
      norm_num
    simp [runCam, detectFaceTick, performBackendDetection, performClientSideDetection,
      camInit, hf]
  refine ⟨e, fun h => ?_⟩
  have hready : ∀ t ∈ [(⟨true, BackendOutcome.failure, [], 0⟩ : CamTickInput),
      ⟨true, BackendOutcome.ok 1, [], 1000⟩], t.videoReady = true := by
    intro t ht
    rcases List.mem_cons.mp ht with h0 | h1
    · rw [h0]
    · rcases List.mem_cons.mp h1 with h2 | h3
      · rw [h2]
      · simp at h3
  have hmem : (false : Bool) ∈ (runCam camInit [⟨true, BackendOutcome.failure, [], 0⟩,
      ⟨true, BackendOutcome.ok 1, [], 1000⟩]).2 := by
    rw [e]
    simp
  have hcontra := h _ hready false hmem
  simp at hcontra

/-- C6 (amended): each 1000 ms tick polls the backend exactly while
`backendDetectionEnabled` holds; on a failed backend call the tick falls
back to the skin-tone heuristic for its verdict, disables backend
detection for all later ticks and reports no error; once disabled, ticks
use only the local heuristic and never poll. -/
theorem C6_detection_polling_and_fallback :
    detectionIntervalMs = 1000 ∧
    (∀ (s : CamState) (o : BackendOutcome) (f : List Pixel) (n : Nat),
      s.backendDetectionEnabled = true → (detectFaceTick s true o f n).2 = true) ∧
    (∀ (s : CamState) (f : List Pixel) (n : Nat),
      s.backendDetectionEnabled = true →
      (detectFaceTick s true BackendOutcome.failure f n).1.faceDetected = facePresent f ∧
      (detectFaceTick s true BackendOutcome.failure f n).1.backendDetectionEnabled = false ∧
      (detectFaceTick s true BackendOutcome.failure f n).1.error = s.error ∧
      (detectFaceTick s true BackendOutcome.failure f n).2 = true) ∧
    (∀ (s : CamState) (o : BackendOutcome) (f : List Pixel) (n : Nat) (ready : Bool),
      s.backendDetectionEnabled = false →
      (detectFaceTick s ready o f n).2 = false ∧
      (detectFaceTick s ready o f n).1 = performClientSideDetection s ready f n) := by
  refine ⟨rfl, ?_, ?_, ?_⟩
  · intro s o f n hs
    cases o <;> simp [detectFaceTick, performBackendDetection, hs]
  · intro s f n hs
    have hstep : detectFaceTick s true BackendOutcome.failure f n =
        (performClientSideDetection { s with backendDetectionEnabled := false } true f n,
          true) := by
      simp [detectFaceTick, performBackendDetection, hs]
    rw [hstep]
    have hclient : ∀ (s' : CamState),
        (performClientSideDetection s' true f n).faceDetected = facePresent f ∧
        (performClientSideDetection s' true f n).backendDetectionEnabled =
          s'.backendDetectionEnabled ∧
        (performClientSideDetection s' true f n).error = s'.error := by
      intro s'
      simp only [performClientSideDetection]
      split_ifs <;> simp_all
    exact ⟨(hclient _).1, (hclient _).2.1, (hclient _).2.2, rfl⟩
  · intro s o f n ready hs
    simp [detectFaceTick, hs]

/-- Witness for the amended C6 at a concrete enabled state, a failing
backend call and a frame whose single pixel is skin-tone. -/
theorem C6_detection_polling_and_fallback_witness :
    camInit.backendDetectionEnabled = true ∧
    (detectFaceTick camInit true BackendOutcome.failure [⟨200, 100, 50⟩] 0).1.faceDetected =
      facePresent [⟨200, 100, 50⟩] ∧
    (detectFaceTick camInit true BackendOutcome.failure [⟨200, 100, 50⟩] 0).1.backendDetectionEnabled = false ∧
    (detectFaceTick camInit true BackendOutcome.failure [⟨200, 100, 50⟩] 0).1.error = camInit.error ∧
    (detectFaceTick camInit true BackendOutcome.failure [⟨200, 100, 50⟩] 0).2 = true ∧
    facePresent [⟨200, 100, 50⟩] = true :=
  ⟨rfl,
    (C6_detection_polling_and_fallback.2.2.1 camInit [⟨200, 100, 50⟩] 0 rfl).1,
    (C6_detection_polling_and_fallback.2.2.1 camInit [⟨200, 100, 50⟩] 0 rfl).2.1,
    (C6_detection_polling_and_fallback.2.2.1 camInit [⟨200, 100, 50⟩] 0 rfl).2.2.1,
    (C6_detection_polling_and_fallback.2.2.1 camInit [⟨200, 100, 50⟩] 0 rfl).2.2.2,
    by
      simp [facePresent, skinRatio, skinPixelCount, isSkinPixel]
      norm_num⟩

theorem analyticsCleanup_of_none {s : AnalyticsState}
    (h : s.installedIntervalMs = none) : analyticsCleanup s = s := by
  cases s with
  | mk i f =>
    simp only [analyticsCleanup]
    simp at h
    rw [h]

theorem analyticsRun_invisible : ∀ (events : List AnalyticsEvent) (s : AnalyticsState),
    s.installedIntervalMs = none →
    (∀ v, AnalyticsEvent.mount v ∈ events → v = false) →
    (∀ v, AnalyticsEvent.depsChange v ∈ events → v = false) →
    analyticsRun s events = s := by
  intro events
  induction events with
  | nil => intro s _ _ _; rfl
  | cons e es ih =>
    intro s hnone hm hd
    have hstep : analyticsStep s e = s := by
      cases e with
      | mount v =>
        have hv : v = false := hm v (List.mem_cons_self _ _)
        subst hv
        rfl
      | depsChange v =>
        have hv : v = false := hd v (List.mem_cons_self _ _)
        subst hv
        show analyticsEffect false (analyticsCleanup s) = s
        rw [analyticsCleanup_of_none hnone]
        rfl
      | tick =>
        show (if s.installedIntervalMs.isSome then
          { s with fetchCount := s.fetchCount + 1 } else s) = s
        rw [hnone]
        rfl
      | unmount => exact analyticsCleanup_of_none hnone
    show analyticsRun (analyticsStep s e) es = s
    rw [hstep]
    exact ih s hnone (fun v hv => hm v (List.mem_cons_of_mem _ hv))
      (fun v hv => hd v (List.mem_cons_of_mem _ hv))

/-- C7: the analytics panel polls with a 5000 ms interval only while
visible: the effect with `isVisible = false` changes nothing (no fetch, no
interval); with `isVisible = true` it installs the 5-second interval and
issues an immediate fetch; a dependency change re-runs the effect after
clearing the old interval and unmount clears it; an interval tick fetches
exactly when an interval is installed; and along any lifecycle that is
never visible the state stays in its initial form (no fetch ever issued,
no interval ever installed). -/
theorem C7_analytics_polling :
    analyticsIntervalMs = 5000 ∧
    (∀ s, analyticsEffect false s = s) ∧
    (∀ s, (analyticsEffect true s).installedIntervalMs = some analyticsIntervalMs ∧
      (analyticsEffect true s).fetchCount = s.fetchCount + 1) ∧
    (∀ s, (analyticsStep s AnalyticsEvent.unmount).installedIntervalMs = none) ∧
    (∀ s v, (analyticsStep s (AnalyticsEvent.depsChange v)).installedIntervalMs =
      (if v then some analyticsIntervalMs else none)) ∧
    (∀ s, (analyticsStep s AnalyticsEvent.tick).fetchCount =
      (if s.installedIntervalMs.isSome then s.fetchCount + 1 else s.fetchCount)) ∧
    (∀ events : List AnalyticsEvent,
      (∀ v, AnalyticsEvent.mount v ∈ events → v = false) →
      (∀ v, AnalyticsEvent.depsChange v ∈ events → v = false) →
      analyticsRun analyticsInit events = analyticsInit) := by
  refine ⟨rfl, fun s => rfl, fun s => ⟨rfl, rfl⟩, fun s => rfl, ?_, ?_, ?_⟩
  · intro s v
    cases v with
    | false =>
      show (analyticsEffect false (analyticsCleanup s)).installedIntervalMs = none
      rfl
    | true => rfl
  · intro s
    show (if s.installedIntervalMs.isSome then
      { s with fetchCount := s.fetchCount + 1 } else s).fetchCount = _
    by_cases h : s.installedIntervalMs.isSome <;> simp [h]
  · intro events hm hd
    exact analyticsRun_invisible events analyticsInit rfl hm hd

/-- Witness for C7 along a concrete never-visible lifecycle. -/
theorem C7_analytics_polling_witness :
    (∀ v, AnalyticsEvent.mount v ∈
      [AnalyticsEvent.mount false, AnalyticsEvent.tick, AnalyticsEvent.unmount] →
      v = false) ∧
    (∀ v, AnalyticsEvent.depsChange v ∈
      [AnalyticsEvent.mount false, AnalyticsEvent.tick, AnalyticsEvent.unmount] →
      v = false) ∧
    analyticsRun analyticsInit
      [AnalyticsEvent.mount false, AnalyticsEvent.tick, AnalyticsEvent.unmount] =
      analyticsInit :=
  ⟨by decide, by decide,
    C7_analytics_polling.2.2.2.2.2.2
      [AnalyticsEvent.mount false, AnalyticsEvent.tick, AnalyticsEvent.unmount]
      (by decide) (by decide)⟩

theorem countP_id_set_false : ∀ (l : List Bool) (i : Nat), l[i]? = some true →
    (l.set i false).countP (fun b => b) + 1 = l.countP (fun b => b) := by
  intro l
  induction l with
  | nil => intro i h; simp at h
  | cons a as ih =>
    intro i h
    cases i with
    | zero =>
      simp at h
      subst h
      simp [List.countP_cons]
    | succ n =>
      simp at h
      have := ih n h
      simp [List.countP_cons]
      omega

theorem getElem_set_false_self : ∀ (l : List Bool) (i : Nat), i < l.length →
    (l.set i false)[i]? = some false := by
  intro l
  induction l with
  | nil => intro i h; simp at h
  | cons a as ih =>
    intro i h
    cases i with
    | zero => simp
    | succ n =>
      simp at h
      simpa using ih n h

theorem getElem_concat_length : ∀ (l : List Bool) (a : Bool), (l ++ [a])[l.length]? = some a := by
  intro l a
  induction l with
  | nil => rfl
  | cons x xs ih => simp [ih]

/-- Invariant of the recording state under the start/stop discipline: at
most one recorder is in flight, none when `isRecording` is unset, and when
set the ref points at the unique in-flight recorder. -/
def RecInv (s : RecState) : Prop :=
  countRecording s ≤ 1 ∧
  (s.isRecording = false → countRecording s = 0) ∧
  (s.isRecording = true → ∃ i, s.mediaRecorderRef = some i ∧
    s.recorders[i]? = some true ∧ countRecording s = 1)

theorem recInv_init : RecInv recInit := by
  refine ⟨by decide, fun _ => by decide, fun h => ?_⟩
  simp [recInit] at h

theorem recInv_start {s : RecState} (h : RecInv s) (hrec : s.isRecording = false) :
    RecInv (recStep s RecOp.startL) := by
  have hc0 : countRecording s = 0 := h.2.1 hrec
  have hcount : countRecording (recStep s RecOp.startL) = 1 := by
    show (s.recorders ++ [true]).countP (fun b => b) = 1
    rw [List.countP_append]
    have : s.recorders.countP (fun b => b) = 0 := hc0
    simp [this]
  refine ⟨le_of_eq hcount, ?_, ?_⟩
  · intro hfalse
    simp [recStep] at hfalse
  · intro _
    exact ⟨s.recorders.length, rfl, getElem_concat_length s.recorders true, hcount⟩

theorem recInv_stop {s : RecState} (h : RecInv s) : RecInv (recStep s RecOp.stopL) := by
  cases href : s.mediaRecorderRef with
  | none =>
    have : recStep s RecOp.stopL = s := by simp [recStep, href]
    rw [this]
    exact h
  | some i =>
    by_cases hrec : s.isRecording = true
    · obtain ⟨i', hi', hget, hcount⟩ := h.2.2 hrec
      have hii : i' = i := by
        rw [href] at hi'
        exact (Option.some_injective _ hi').symm
      subst hii
      have hstep : recStep s RecOp.stopL =
          { s with recorders := s.recorders.set i' false, isRecording := false } := by
        simp [recStep, href, hrec]
      rw [hstep]
      have hc0 : (s.recorders.set i' false).countP (fun b => b) = 0 := by
        have := countP_id_set_false s.recorders i' hget
        have hc : s.recorders.countP (fun b => b) = 1 := hcount
        omega
      refine ⟨?_, fun _ => hc0, fun htrue => by simp at htrue⟩
      show (s.recorders.set i' false).countP (fun b => b) ≤ 1
      omega
    · have : recStep s RecOp.stopL = s := by
        simp [recStep, href]
        intro hc
        exact absurd hc hrec
      rw [this]
      exact h

theorem guardedRecRun_inv : ∀ (ops : List RecOp) (s s' : RecState), RecInv s →
    guardedRecRun s ops = some s' → RecInv s' := by
  intro ops
  induction ops with
  | nil =>
    intro s s' h e
    simp [guardedRecRun] at e
    rw [← e]
    exact h
  | cons op ops ih =>
    intro s s' h e
    cases op with
    | startL =>
      rw [guardedRecRun] at e
      by_cases hrec : s.isRecording = true
      · rw [if_pos hrec] at e
        simp at e
      · rw [if_neg hrec] at e
        exact ih _ _ (recInv_start h (Bool.not_eq_true _ ▸ Bool.of_not_eq_true hrec)) e
    | stopL =>
      rw [guardedRecRun] at e
      exact ih _ _ (recInv_stop h) e

/-- C4 (counterexample): two consecutive `startListening` calls leave two
`MediaRecorder`s recording at once (the code never checks `isRecording`
before starting a new one), refuting "at most one MediaRecorder started by
startListening is recording" over arbitrary interleavings. -/
theorem C4_counterexample :
    countRecording (recRun recInit [RecOp.startL, RecOp.startL]) = 2 ∧
    ¬ (∀ ops : List RecOp, countRecording (recRun recInit ops) ≤ 1) := by
  have e : countRecording (recRun recInit [RecOp.startL, RecOp.startL]) = 2 := by decide
  exact ⟨e, fun h => by have := h [RecOp.startL, RecOp.startL]; omega⟩

/-- C4 (amended): under the discipline that `startListening` is never
invoked while `isRecording` is set, every reachable state has at most one
in-flight recording and `stopListening` stops the in-flight one. -/
theorem C4_single_recording_under_discipline (ops : List RecOp) (s' : RecState)
    (h : guardedRecRun recInit ops = some s') :
    countRecording s' ≤ 1 ∧
    (∀ i, s'.mediaRecorderRef = some i → s'.isRecording = true →
      (recStep s' RecOp.stopL).isRecording = false ∧
      ((recStep s' RecOp.stopL).recorders)[i]? = some false) := by
  have hinv := guardedRecRun_inv ops recInit s' recInv_init h
  refine ⟨hinv.1, ?_⟩
  intro i href hrec
  obtain ⟨i', hi', hget, hcount⟩ := hinv.2.2 hrec
  have hii : i' = i := by
    rw [href] at hi'
    exact (Option.some_injective _ hi').symm
  subst hii
  have hlt : i' < s'.recorders.length := by
    rcases List.getElem?_eq_some.mp hget with ⟨hl, _⟩
    exact hl
  have hstep : recStep s' RecOp.stopL =
      { s' with recorders := s'.recorders.set i' false, isRecording := false } := by
    simp [recStep, href, hrec]
  rw [hstep]
  exact ⟨rfl, getElem_set_false_self s'.recorders i' hlt⟩

/-- The recording state after one `startListening` from the initial
state. -/
def recAfterStart : RecState :=
  { recorders := [true], mediaRecorderRef := some 0, isRecording := true }

/-- Witness for the amended C4 after one disciplined `startListening`. -/
theorem C4_single_recording_under_discipline_witness :
    guardedRecRun recInit [RecOp.startL] = some recAfterStart ∧
    countRecording recAfterStart ≤ 1 ∧
    (recStep recAfterStart RecOp.stopL).isRecording = false ∧
    ((recStep recAfterStart RecOp.stopL).recorders)[0]? = some false := by
  have h := C4_single_recording_under_discipline [RecOp.startL] recAfterStart rfl
  exact ⟨rfl, h.1, (h.2 0 rfl rfl).1, (h.2 0 rfl rfl).2⟩

/-- C2: session lifecycle.  `startInterview` creates every session with
status `in-progress` (fresh, with no responses and a null result);
`stopInterview` moves an existing session exactly to `stopped`;
`completeInterview` moves it exactly to `completed` (when its guard
passes, otherwise it changes nothing); and no operation other than
`startInterview` (which replaces the session by a new one) changes the
session id, or moves a `stopped`/`completed` session back to
`in-progress`. -/
theorem C2_session_lifecycle :
    (∀ (st : HookState) (info : StudentInfo) (jd : JobDescription) (newId : String)
        (outcome : FetchOutcome) (now : Nat) (createdAt : String),
      ∃ s, (step st (Op.start info jd newId outcome now createdAt)).currentSession =
          some s ∧
        s.status = Status.inProgress ∧ s.responses = [] ∧ s.result = none ∧
        s.id = newId) ∧
    (∀ (st : HookState) (now : Nat) (completedAt : String),
      sessionStatus (step st (Op.stop now completedAt)) =
        st.currentSession.map (fun _ => Status.stopped)) ∧
    (∀ (st : HookState) (now : Nat) (completedAt : String) (jTech jEmo : Nat),
      sessionStatus (step st (Op.complete now completedAt jTech jEmo)) =
        st.currentSession.map (fun s =>
          if s.responses.isEmpty then s.status else Status.completed)) ∧
    (∀ (st : HookState) (op : Op) (s s' : InterviewSession), op.isStart = false →
      st.currentSession = some s → (step st op).currentSession = some s' →
      s'.id = s.id ∧
      ((s.status = Status.stopped ∨ s.status = Status.completed) →
        s'.status ≠ Status.inProgress)) := by
  refine ⟨?_, ?_, ?_, ?_⟩
  · intro st info jd newId outcome now createdAt
    exact ⟨_, rfl, rfl, rfl, rfl, rfl⟩
  · intro st now completedAt
    cases h : st.currentSession with
    | none => simp [step, stopInterview, sessionStatus, h]
    | some s => simp [step, stopInterview, sessionStatus, h]
  · intro st now completedAt jTech jEmo
    cases h : st.currentSession with
    | none => simp [step, completeInterview, sessionStatus, h]
    | some s =>
      by_cases he : s.responses.isEmpty
      · have he' : s.responses = [] := List.isEmpty_iff.mp he
        simp [step, completeInterview, sessionStatus, h, he, he']
      · have he' : s.responses ≠ [] := by simpa [List.isEmpty_iff] using he
        simp [step, completeInterview, sessionStatus, h, he, he']
  · intro st op s s' hop hs hs'
    cases op with
    | start info jd newId outcome now createdAt => simp [Op.isStart] at hop
    | submit questionId answer duration jc jcl hasEx hasQuant kwMatch tone audio =>
      simp [step, submitResponse, hs] at hs'
      rw [← hs']
      exact ⟨rfl, fun hstat => by
        rcases hstat with h1 | h1 <;> simp [h1]⟩
    | next =>
      have : (step st Op.next).currentSession = st.currentSession := by
        simp only [step, nextQuestion]
        cases h : st.currentSession with
        | none => simp [h]
        | some s0 =>
          by_cases hidx : st.currentQuestionIndex < s0.questions.length - 1 <;>
            simp [h, hidx]
      rw [this, hs] at hs'
      have hss : s' = s := Option.some_injective _ hs'.symm
      subst hss
      exact ⟨rfl, fun hstat => by
        rcases hstat with h1 | h1 <;> simp [h1]⟩
    | stop now completedAt =>
      simp [step, stopInterview, hs] at hs'
      rw [← hs']
      exact ⟨rfl, fun _ => by simp⟩
    | complete now completedAt jTech jEmo =>
      simp only [step, completeInterview, hs] at hs'
      by_cases he : s.responses.isEmpty
      · rw [if_pos he, hs] at hs'
        have hss : s' = s := Option.some_injective _ hs'.symm
        subst hss
        exact ⟨rfl, fun hstat => by
          rcases hstat with h1 | h1 <;> simp [h1]⟩
      · rw [if_neg he] at hs'
        simp at hs'
        rw [← hs']
        exact ⟨rfl, fun _ => by simp⟩

/-- Witness for C2 on a stopped session and the non-start operation
`nextQuestion`. -/
theorem C2_session_lifecycle_witness :
    Op.isStart Op.next = false ∧
    (step (stopInterview (step hookInit (Op.start ⟨"Ada", none⟩
        ⟨"Dev", "Acme", "technical", "entry", none⟩ "id1" FetchOutcome.networkError 0 "t0"))
        100 "t1") Op.next).currentSession.isSome = true ∧
    (∀ s s', (stopInterview (step hookInit (Op.start ⟨"Ada", none⟩
        ⟨"Dev", "Acme", "technical", "entry", none⟩ "id1" FetchOutcome.networkError 0 "t0"))
        100 "t1").currentSession = some s →
      (step (stopInterview (step hookInit (Op.start ⟨"Ada", none⟩
        ⟨"Dev", "Acme", "technical", "entry", none⟩ "id1" FetchOutcome.networkError 0 "t0"))
        100 "t1") Op.next).currentSession = some s' →
      s'.id = s.id ∧
      ((s.status = Status.stopped ∨ s.status = Status.completed) →
        s'.status ≠ Status.inProgress)) :=
  ⟨rfl, rfl, fun s s' hs hs' =>
    C2_session_lifecycle.2.2.2 _ Op.next s s' rfl hs hs'⟩

/-- C3: `submitResponse` with a non-null current session appends exactly
one new response (the one built from its arguments) at the end of the
responses list, and every non-start operation leaves the existing
responses as a prefix — nothing is removed or reordered. -/
theorem C3_responses_grow_monotonically :
    (∀ (st : HookState) (questionId answer : String) (duration jc jcl : Nat)
        (hasEx hasQuant kwMatch : Bool) (tone : String) (audio : Option Unit)
        (s : InterviewSession), st.currentSession = some s →
      ∃ s', (submitResponse st questionId answer duration jc jcl hasEx hasQuant
          kwMatch tone audio).currentSession = some s' ∧
        s'.responses = s.responses ++
          [mkResponse questionId answer duration s.jobDescription.requirements jc jcl
            hasEx hasQuant kwMatch tone audio]) ∧
    (∀ (st : HookState) (op : Op) (s s' : InterviewSession), op.isStart = false →
      st.currentSession = some s → (step st op).currentSession = some s' →
      ∃ tail, s'.responses = s.responses ++ tail) := by
  constructor
  · intro st questionId answer duration jc jcl hasEx hasQuant kwMatch tone audio s hs
    simp only [submitResponse, hs]
    exact ⟨_, rfl, rfl⟩
  · intro st op s s' hop hs hs'
    cases op with
    | start info jd newId outcome now createdAt => simp [Op.isStart] at hop
    | submit questionId answer duration jc jcl hasEx hasQuant kwMatch tone audio =>
      simp [step, submitResponse, hs] at hs'
      rw [← hs']
      exact ⟨_, rfl⟩
    | next =>
      have hnext : (step st Op.next).currentSession = st.currentSession := by
        simp only [step, nextQuestion]
        cases h : st.currentSession with
        | none => simp [h]
        | some s0 =>
          by_cases hidx : st.currentQuestionIndex < s0.questions.length - 1 <;>
            simp [h, hidx]
      rw [hnext, hs] at hs'
      have hss : s' = s := Option.some_injective _ hs'.symm
      subst hss
      exact ⟨[], by simp⟩
    | stop now completedAt =>
      simp [step, stopInterview, hs] at hs'
      rw [← hs']
      exact ⟨[], by simp⟩
    | complete now completedAt jTech jEmo =>
      simp only [step, completeInterview, hs] at hs'
      by_cases he : s.responses.isEmpty
      · rw [if_pos he, hs] at hs'
        have hss : s' = s := Option.some_injective _ hs'.symm
        subst hss
        exact ⟨[], by simp⟩
      · rw [if_neg he] at hs'
        simp at hs'
        rw [← hs']
        exact ⟨[], by simp⟩

/-- Witness for C3: a concrete submission appends its response. -/
theorem C3_responses_grow_monotonically_witness :
    (step hookInit (Op.start ⟨"Ada", none⟩ ⟨"Dev", "Acme", "behavioral", "mid", none⟩
      "id2" FetchOutcome.networkError 0 "t0")).currentSession.isSome = true ∧
    (∀ s, (step hookInit (Op.start ⟨"Ada", none⟩ ⟨"Dev", "Acme", "behavioral", "mid", none⟩
        "id2" FetchOutcome.networkError 0 "t0")).currentSession = some s →
      ∃ s', (submitResponse (step hookInit (Op.start ⟨"Ada", none⟩
          ⟨"Dev", "Acme", "behavioral", "mid", none⟩ "id2" FetchOutcome.networkError 0 "t0"))
          "q0" "my answer" 12 3 4 true false false "calm" none).currentSession = some s' ∧
        s'.responses = s.responses ++
          [mkResponse "q0" "my answer" 12 s.jobDescription.requirements 3 4 true false
            false "calm" none]) :=
  ⟨rfl, fun s hs =>
    C3_responses_grow_monotonically.1 _ "q0" "my answer" 12 3 4 true false false
      "calm" none s hs⟩

theorem nextQuestion_preserves_session (st : HookState) :
    (step st Op.next).currentSession = st.currentSession := by
  simp only [step, nextQuestion]
  cases h : st.currentSession with
  | none => simp [h]
  | some s0 =>
    by_cases hidx : st.currentQuestionIndex < s0.questions.length - 1 <;>
      simp [h, hidx]

/-- Invariant: every completed current session carries a non-null
result. -/
def resultStatusInv (st : HookState) : Prop :=
  ∀ s, st.currentSession = some s → s.status = Status.completed → s.result ≠ none

theorem resultStatusInv_step (st : HookState) (op : Op) (h : resultStatusInv st) :
    resultStatusInv (step st op) := by
  cases op with
  | start info jd newId outcome now createdAt =>
    intro s hs hc
    simp only [step, startInterview] at hs
    rw [← Option.some_injective _ hs] at hc
    simp at hc
  | submit questionId answer duration jc jcl hasEx hasQuant kwMatch tone audio =>
    intro s hs hc
    cases h0 : st.currentSession with
    | none => simp [step, submitResponse, h0] at hs
    | some s0 =>
      simp only [step, submitResponse, h0] at hs
      have hes : _ = s := Option.some_injective _ hs
      rw [← hes] at hc
      have hres := h s0 h0 hc
      rw [← hes]
      exact hres
  | next =>
    intro s hs hc
    rw [nextQuestion_preserves_session] at hs
    exact h s hs hc
  | stop now completedAt =>
    intro s hs hc
    cases h0 : st.currentSession with
    | none => simp [step, stopInterview, h0] at hs
    | some s0 =>
      simp only [step, stopInterview, h0] at hs
      rw [← Option.some_injective _ hs] at hc
      simp at hc
  | complete now completedAt jTech jEmo =>
    intro s hs hc
    cases h0 : st.currentSession with
    | none => simp [step, completeInterview, h0] at hs
    | some s0 =>
      by_cases he : s0.responses.isEmpty
      · simp only [step, completeInterview, h0, if_pos he, h0] at hs
        have hes : s0 = s := Option.some_injective _ hs
        subst hes
        exact h s0 h0 hc
      · simp only [step, completeInterview, h0, if_neg he] at hs
        rw [← Option.some_injective _ hs]
        simp

theorem resultStatusInv_run : ∀ (ops : List Op) (st : HookState),
    resultStatusInv st → resultStatusInv (run st ops) := by
  intro ops
  induction ops with
  | nil => intro st h; exact h
  | cons op ops ih => intro st h; exact ih _ (resultStatusInv_step st op h)

theorem hookInit_inv : resultStatusInv hookInit := by
  intro s hs _
  simp [hookInit] at hs

/-- The trace refuting "result is assigned exactly once": start, one
response, then two `completeInterview` calls (the guard never checks the
status, so a completed session is completed — and its result recomputed —
again). -/
def c1CexOps : List Op :=
  [Op.start ⟨"Ada", none⟩ ⟨"Dev", "Acme", "technical", "entry", none⟩ "id1"
      (FetchOutcome.ok ["Q1"]) 0 "t0",
   Op.submit "q1" "answer" 10 0 0 false false false "calm" none,
   Op.complete 5000 "t1" 0 0,
   Op.complete 9000 "t2" 1 1]

/-- C1 (counterexample): along `c1CexOps` the `result` field is assigned
twice — `completeInterview` re-assigns it when invoked on an
already-completed session — refuting "the result field is assigned exactly
once". -/
theorem C1_counterexample :
    resultWriteCount hookInit c1CexOps = 2 ∧
    ¬ (∀ ops : List Op, resultWriteCount hookInit ops ≤ 1) := by
  have e : resultWriteCount hookInit c1CexOps = 2 := by decide
  exact ⟨e, fun h => by have := h c1CexOps; omega⟩

/-- C1 (amended): in every reachable state a completed session has a
non-null result; `submitResponse`, `nextQuestion` and `stopInterview`
never write the `result` field; `startInterview` initialises the fresh
session's result to null; and whenever `completeInterview` assigns a
result it simultaneously sets the status to `completed` and leaves the
result non-null.  (Only the "exactly once" part of the original claim
fails: a second `completeInterview` call re-assigns the result.) -/
theorem C1_result_assignment :
    (∀ ops : List Op, resultStatusInv (run hookInit ops)) ∧
    (∀ (st : HookState) (questionId answer : String) (duration jc jcl : Nat)
        (hasEx hasQuant kwMatch : Bool) (tone : String) (audio : Option Unit),
      sessionResult (step st (Op.submit questionId answer duration jc jcl hasEx
        hasQuant kwMatch tone audio)) = sessionResult st) ∧
    (∀ st : HookState, sessionResult (step st Op.next) = sessionResult st) ∧
    (∀ (st : HookState) (now : Nat) (completedAt : String),
      sessionResult (step st (Op.stop now completedAt)) = sessionResult st) ∧
    (∀ (st : HookState) (info : StudentInfo) (jd : JobDescription) (newId : String)
        (outcome : FetchOutcome) (now : Nat) (createdAt : String),
      sessionResult (step st (Op.start info jd newId outcome now createdAt)) =
        some none) ∧
    (∀ (st : HookState) (now : Nat) (completedAt : String) (jTech jEmo : Nat),
      writesResult st (Op.complete now completedAt jTech jEmo) = true →
      sessionStatus (step st (Op.complete now completedAt jTech jEmo)) =
        some Status.completed ∧
      ((step st (Op.complete now completedAt jTech jEmo)).currentSession.map
        (fun s => s.result.isSome)) = some true) := by
  refine ⟨?_, ?_, ?_, ?_, ?_, ?_⟩
  · intro ops
    exact resultStatusInv_run ops hookInit hookInit_inv
  · intro st questionId answer duration jc jcl hasEx hasQuant kwMatch tone audio
    cases h0 : st.currentSession with
    | none => simp [sessionResult, step, submitResponse, h0]
    | some s0 => simp [sessionResult, step, submitResponse, h0]
  · intro st
    simp [sessionResult, nextQuestion_preserves_session]
  · intro st now completedAt
    cases h0 : st.currentSession with
    | none => simp [sessionResult, step, stopInterview, h0]
    | some s0 => simp [sessionResult, step, stopInterview, h0]
  · intro st info jd newId outcome now createdAt
    rfl
  · intro st now completedAt jTech jEmo hw
    cases h0 : st.currentSession with
    | none => simp [writesResult, h0] at hw
    | some s0 =>
      simp only [writesResult, h0] at hw
      have he : s0.responses.isEmpty = false := by
        cases hie : s0.responses.isEmpty
        · rfl
        · rw [hie] at hw; simp at hw
      constructor
      · simp [sessionStatus, step, completeInterview, h0, he]
      · simp [step, completeInterview, h0, he]

/-- The hook state after a started interview with one submitted
response. -/
def c1StateW : HookState :=
  run hookInit
    [Op.start ⟨"Ada", none⟩ ⟨"Dev", "Acme", "technical", "entry", none⟩ "id1"
        (FetchOutcome.ok ["Q1"]) 0 "t0",
     Op.submit "q1" "answer" 10 0 0 false false false "calm" none]

/-- Witness for the amended C1 at a concrete completable state. -/
theorem C1_result_assignment_witness :
    writesResult c1StateW (Op.complete 5000 "t1" 0 0) = true ∧
    sessionStatus (step c1StateW (Op.complete 5000 "t1" 0 0)) = some Status.completed ∧
    ((step c1StateW (Op.complete 5000 "t1" 0 0)).currentSession.map
      (fun s => s.result.isSome)) = some true ∧
    sessionResult (step c1StateW Op.next) = sessionResult c1StateW :=
  ⟨by decide,
   (C1_result_assignment.2.2.2.2.2 c1StateW 5000 "t1" 0 0 (by decide)).1,
   (C1_result_assignment.2.2.2.2.2 c1StateW 5000 "t1" 0 0 (by decide)).2,
   C1_result_assignment.2.2.1 c1StateW⟩

end HRAI
